import Mathlib

/-!
URL shortener: key generator and store protocol.

A shallow embedding of `main.go`.  The random source, the Go map handed to
`RandomShortID`, the `short_urls` table and the two HTTP handlers are modelled
as pure functions with explicit state passing.
-/

namespace UrlShortener

/-! ## Key generator -/

/-- The alphabet `charset` of `main.go`. -/
def charset : String := "0123456789abcdefghijklmnopqrstuvwxyzABCDEFGHIJKLMNOPQRSTUVWXYZ"

/-- The constant `idLength`. -/
def idLength : Nat := 6

/-- Go's `len(charset)`: the number of bytes of the string constant. -/
def charsetLen : Nat := charset.utf8ByteSize

/-- The package variable `totalCombinations = int64(len(charset)) ^ idLength`.
In Go the binary operator `^` on integers is bitwise exclusive or. -/
def totalCombinations : Nat := charsetLen ^^^ idLength

/-- The global `math/rand` source: an unbounded stream of raw values together
with the number of values already consumed. -/
structure Rand where
  src : Nat → Nat
  pos : Nat

/-- The call `rand.Intn(n)`: consumes one value of the source and returns a
number in `[0, n)`. -/
def Rand.Intn (n : Nat) (r : Rand) : Nat × Rand :=
  (r.src r.pos % n, { r with pos := r.pos + 1 })

/-- The expression `charset[i]`.  Every character of `charset` is one byte
long, so that byte `i` is character `i`; an index out of range (a run-time
panic in Go) is mapped to `'?'`, which is no character of `charset`. -/
def charsetAt (i : Nat) : Char := charset.toList.getD i '?'

/-- The loop `for i := range id { id[i] = charset[rand.Intn(len(charset))] }`
with `n` positions still to fill. -/
def fillID : Nat → Rand → List Char × Rand
  | 0, r => ([], r)
  | n + 1, r =>
    let (i, r1) := r.Intn charsetLen
    let (cs, r2) := fillID n r1
    (charsetAt i :: cs, r2)

/-- The function `generateRandomID`. -/
def generateRandomID (r : Rand) : String × Rand :=
  let (cs, r1) := fillID idLength r
  (String.mk cs, r1)

/-- A Go `map[string]bool`. -/
abbrev IDSet := AList (fun _ : String => Bool)

/-- The index expression `existingIDs[id]`: the stored value, or `false` (the
zero value) when the key is absent. -/
def IDSet.at (m : IDSet) (id : String) : Bool := (m.lookup id).getD false

/-- Go's `len(existingIDs)`: the number of entries, whatever their values. -/
def IDSet.len (m : IDSet) : Nat := m.entries.length

/-- The assignment `existingIDs[id] = true`. -/
def IDSet.set (m : IDSet) (id : String) : IDSet := m.insert id true

/-- The loop `for existingIDs[id] { id = generateRandomID() }`, entered with the
current candidate `id`.  `fuel` bounds the number of iterations; `none` means
the bound was reached with the loop still running. -/
def resample : Nat → IDSet → String → Rand → Option (String × Rand)
  | fuel, m, id, r =>
    if m.at id then
      match fuel with
      | 0 => none
      | f + 1 =>
        let (id1, r1) := generateRandomID r
        resample f m id1 r1
    else some (id, r)

/-- A Go `error` value: the sentinel `sql.ErrNoRows`, which the handlers compare
by identity, or any other error, with its message. -/
inductive GoError
  | ErrNoRows
  | other (msg : String)
deriving DecidableEq, Repr

/-- The message of the error built by `RandomShortID`. -/
def errExhausted : String := "no more unique IDs can be generated"

/-- The function `RandomShortID`.  The result carries the returned pair
`(string, error)` as an `Except`, the map after the call and the random source
after the call. -/
def RandomShortID (fuel : Nat) (existingIDs : IDSet) (r : Rand) :
    Option (Except GoError String × IDSet × Rand) :=
  if existingIDs.len ≥ totalCombinations then
    some (.error (.other errExhausted), existingIDs, r)
  else
    let (id, r1) := generateRandomID r
    match resample fuel existingIDs id r1 with
    | none => none
    | some (id1, r2) => some (.ok id1, existingIDs.set id1, r2)

/-! ## Storage -/

/-- A row of the table `short_urls`.  The columns `id` and `created_at` are
filled in by the database and are read by no statement of the program; they are
left out. -/
structure ShortURL where
  key : String
  original_url : String
deriving DecidableEq, Repr

/-- The contents of `short_urls`, in insertion order. -/
abbrev Table := List ShortURL

/-- The SQL statements the program sends. -/
inductive Stmt
  | selectKey (originalURL : String)
  | insert (key originalURL : String)
  | selectOriginalURL (key : String)
deriving DecidableEq, Repr

/-- The function `getShortURLByOriginalURL`:
`SELECT key FROM short_urls WHERE original_url = $1 LIMIT 1` followed by `Scan`.
`fault` is the failure of the statement itself (connection, driver), if any;
without one the first matching row is returned and the absence of a row is
`sql.ErrNoRows`. -/
def getShortURLByOriginalURL (fault : Option String) (db : Table) (originalURL : String) :
    Except GoError String :=
  match fault with
  | some e => .error (.other e)
  | none =>
    match db.find? (fun row => decide (row.original_url = originalURL)) with
    | some row => .ok row.key
    | none => .error .ErrNoRows

/-- The statement `SELECT original_url FROM short_urls WHERE key = $1 LIMIT 1`
followed by `Scan`. -/
def selectOriginalURL (fault : Option String) (db : Table) (shortKey : String) :
    Except GoError String :=
  match fault with
  | some e => .error (.other e)
  | none =>
    match db.find? (fun row => decide (row.key = shortKey)) with
    | some row => .ok row.original_url
    | none => .error .ErrNoRows

/-- The statement
`INSERT INTO short_urls (key, original_url) VALUES ($1, $2) RETURNING key`
followed by `Scan`, under the schema of `SetupSchema`: `key VARCHAR(20) NOT NULL
UNIQUE`.  A statement that fails changes nothing.  A key of more than 20
characters is rejected by the column type, a key already present by the
`UNIQUE` constraint; otherwise the row is appended and its key returned. -/
def insertShortURL (fault : Option String) (db : Table) (key originalURL : String) :
    Except GoError String × Table :=
  match fault with
  | some e => (.error (.other e), db)
  | none =>
    if 20 < key.length then
      (.error (.other "value too long for type character varying(20)"), db)
    else if db.any (fun row => decide (row.key = key)) then
      (.error (.other "duplicate key value violates unique constraint"), db)
    else (.ok key, db ++ [⟨key, originalURL⟩])

/-- The function `createShortURL`.  Besides the returned pair the result holds
the table and the random source after the call and the statements sent. -/
def createShortURL (fuel : Nat) (fault : Option String) (db : Table) (originalURL : String)
    (r : Rand) : Option (Except GoError String × Table × Rand × List Stmt) :=
  match RandomShortID fuel ∅ r with
  | none => none
  | some (.error e, _, r1) => some (.error e, db, r1, [])
  | some (.ok shortKey, _, r1) =>
    match insertShortURL fault db shortKey originalURL with
    | (.error e, db1) => some (.error e, db1, r1, [.insert shortKey originalURL])
    | (.ok shortKey1, db1) => some (.ok shortKey1, db1, r1, [.insert shortKey originalURL])

/-! ## HTTP handlers -/

/-- What a handler writes: a JSON object with a status code (the members in the
order of their names, as `encoding/json` writes a map), or a redirect. -/
inductive Response
  | json (status : Nat) (body : List (String × String))
  | redirect (status : Nat) (location : String)
deriving DecidableEq, Repr

/-- The failures of the storage statements of one `POST` request, if any. -/
structure Faults where
  select : Option String
  insert : Option String

/-- The effect of one request: the response, the table and random source
afterwards, and the statements sent, in order. -/
structure Outcome where
  response : Response
  db : Table
  rand : Rand
  stmts : List Stmt

/-- The handler `GetOrCreateShortURL` (`POST /`).  `body` is the result of
`ctx.BodyParser`: `none` when it returns an error, else the field
`original_url`. -/
def GetOrCreateShortURL (fuel : Nat) (f : Faults) (db : Table) (r : Rand)
    (body : Option String) : Option Outcome :=
  match body with
  | none => some ⟨.json 400 [("error", "Invalid input")], db, r, []⟩
  | some originalURL =>
    match getShortURLByOriginalURL f.select db originalURL with
    | .error .ErrNoRows =>
      match createShortURL fuel f.insert db originalURL r with
      | none => none
      | some (.error _, db1, r1, st) =>
        some ⟨.json 500 [("error", "Failed to create short URL")], db1, r1,
          .selectKey originalURL :: st⟩
      | some (.ok shortKey, db1, r1, st) =>
        some ⟨.json 200 [("original_url", originalURL), ("short_url", shortKey)], db1, r1,
          .selectKey originalURL :: st⟩
    | .error (.other _) =>
      some ⟨.json 500 [("error", "Failed to check for existing short URL")], db, r,
        [.selectKey originalURL]⟩
    | .ok shortURL =>
      some ⟨.json 200 [("original_url", originalURL), ("short_url", shortURL)], db, r,
        [.selectKey originalURL]⟩

/-- The handler `RedirectToCorrespondingURL` (`GET /:key`). -/
def RedirectToCorrespondingURL (fault : Option String) (db : Table) (r : Rand)
    (shortKey : String) : Outcome :=
  match selectOriginalURL fault db shortKey with
  | .error .ErrNoRows => ⟨.json 404 [("error", "Short URL not found")], db, r,
      [.selectOriginalURL shortKey]⟩
  | .error (.other _) => ⟨.json 500 [("error", "Failed to retrieve original URL")], db, r,
      [.selectOriginalURL shortKey]⟩
  | .ok originalURL => ⟨.redirect 301 originalURL, db, r, [.selectOriginalURL shortKey]⟩

/-- A request to the service, with the storage failures met while serving it. -/
inductive Request
  | post (body : Option String) (f : Faults)
  | get (key : String) (fault : Option String)

/-- Serving one request. -/
def handle (fuel : Nat) (req : Request) (db : Table) (r : Rand) : Option Outcome :=
  match req with
  | .post body f => GetOrCreateShortURL fuel f db r body
  | .get key fault => some (RedirectToCorrespondingURL fault db r key)

/-- The tables that sequential requests lead to from the table `a`. -/
inductive ReachableFrom (a : Table) : Table → Prop
  | start : ReachableFrom a a
  | serve {b : Table} (fuel : Nat) (req : Request) (r : Rand) (o : Outcome) :
      ReachableFrom a b → handle fuel req b r = some o → ReachableFrom a o.db

/-- The tables reachable from the empty table created by `SetupSchema`. -/
def Reachable (db : Table) : Prop := ReachableFrom [] db

/-- The response of a successful `POST`. -/
def created (originalURL shortKey : String) : Response :=
  .json 200 [("original_url", originalURL), ("short_url", shortKey)]

/-- The random source after `k` further values have been consumed. -/
def Rand.skip (r : Rand) (k : Nat) : Rand := { r with pos := r.pos + k }

/-- The `n`-th identifier (counting from 0) that successive calls of
`generateRandomID` produce, starting from the source `r`. -/
def candidate (r : Rand) (n : Nat) : String := (generateRandomID (r.skip (idLength * n))).1

/-- A map with exactly `n` entries: the keys are the strings of `i` letters
`a`, for `i < n`, all marked `true`. -/
def unaryIDs (n : Nat) : IDSet :=
  ⟨(List.range n).map (fun i => ⟨String.mk (List.replicate i 'a'), true⟩), by
    have hinj : Function.Injective (fun i : Nat => String.mk (List.replicate i 'a')) := by
      intro i j hij
      have h1 : List.replicate i 'a' = List.replicate j 'a' := by injection hij
      simpa using congrArg List.length h1
    simp only [List.NodupKeys, List.keys, List.map_map]
    exact (List.nodup_range n).map hinj⟩

/-! ## Sample data -/

/-- A source whose first six values are 0 and whose later values are 1: the
candidates are `000000`, then `111111` for ever. -/
def zerosThenOnes : Rand := ⟨fun n => if n < 6 then 0 else 1, 0⟩

/-- A map in which `000000` is marked. -/
def seenZeros : IDSet := (∅ : IDSet).set "000000"

/-- The outcome of the first `POST` for `https://example.com` on the empty table
with the source `zerosThenOnes`. -/
def firstOutcome : Outcome :=
  ⟨created "https://example.com" "000000", [⟨"000000", "https://example.com"⟩],
    zerosThenOnes.skip 6,
    [.selectKey "https://example.com", .insert "000000" "https://example.com"]⟩

/-- The outcome of a following `POST` for `https://other.example`. -/
def secondOutcome : Outcome :=
  ⟨created "https://other.example" "111111",
    [⟨"000000", "https://example.com"⟩, ⟨"111111", "https://other.example"⟩],
    zerosThenOnes.skip 12,
    [.selectKey "https://other.example", .insert "111111" "https://other.example"]⟩

/-- A table in which the key `000000` is taken. -/
def occupied : Table := [⟨"000000", "https://example.com"⟩]

/-! ## Facts about the key generator -/

theorem charsetLen_eq : charsetLen = 62 := by decide

theorem totalCombinations_eq : totalCombinations = 56 := by decide

theorem charsetAt_mem (i : Nat) (h : i < 62) : charsetAt i ∈ charset.toList := by
  have hlen : i < charset.toList.length := by
    have : charset.toList.length = 62 := by decide
    omega
  unfold charsetAt
  rw [List.getD_eq_getElem _ _ hlen]
  exact List.getElem_mem hlen

theorem charset_isAlphanum : ∀ c ∈ charset.toList, c.isAlphanum = true := by decide

set_option maxRecDepth 100000 in
theorem alphanum_below (n : Nat) :
    n < 123 → (Char.ofNat n).isAlphanum = true → Char.ofNat n ∈ charset.toList := by
  revert n
  decide

/-- Every ASCII letter and digit is a character of `charset`. -/
theorem alphanum_mem_charset (c : Char) (h : c.isAlphanum = true) : c ∈ charset.toList := by
  have hlt : c.toNat < 123 := by
    simp only [Char.isAlphanum, Char.isAlpha, Char.isUpper, Char.isLower, Char.isDigit,
      Bool.or_eq_true, Bool.and_eq_true, decide_eq_true_eq] at h
    have key : ∀ b : UInt32, c.val ≤ b → c.val.toNat ≤ b.toNat := fun b hb => hb
    show c.val.toNat < 123
    rcases h with (⟨_, h⟩ | ⟨_, h⟩) | ⟨_, h⟩
    · have h1 : c.val.toNat ≤ 90 := key _ h
      omega
    · have h1 : c.val.toNat ≤ 122 := key _ h
      omega
    · have h1 : c.val.toNat ≤ 57 := key _ h
      omega
  have := alphanum_below c.toNat hlt (by rw [Char.ofNat_toNat]; exact h)
  rwa [Char.ofNat_toNat] at this

theorem fillID_length (n : Nat) (r : Rand) : (fillID n r).1.length = n := by
  induction n generalizing r with
  | zero => rfl
  | succ n ih => simp [fillID, ih]

theorem fillID_rand (n : Nat) (r : Rand) : (fillID n r).2 = r.skip n := by
  induction n generalizing r with
  | zero => rfl
  | succ n ih =>
    simp only [fillID, ih, Rand.Intn, Rand.skip]
    congr 1
    omega

theorem fillID_mem (n : Nat) (r : Rand) : ∀ c ∈ (fillID n r).1, c ∈ charset.toList := by
  induction n generalizing r with
  | zero => intro c hc; simp [fillID] at hc
  | succ n ih =>
    intro c hc
    simp only [fillID, List.mem_cons] at hc
    rcases hc with hc | hc
    · rw [hc]
      apply charsetAt_mem
      simp only [Rand.Intn, charsetLen_eq]
      exact Nat.mod_lt _ (by decide)
    · exact ih _ c hc

theorem generateRandomID_length (r : Rand) : (generateRandomID r).1.length = 6 := by
  simp [generateRandomID, String.length, fillID_length, idLength]

theorem generateRandomID_mem (r : Rand) :
    ∀ c ∈ (generateRandomID r).1.toList, c ∈ charset.toList := by
  intro c hc
  exact fillID_mem idLength r c (by simpa [generateRandomID] using hc)

theorem generateRandomID_rand (r : Rand) : (generateRandomID r).2 = r.skip idLength := by
  simp [generateRandomID, fillID_rand]

theorem skip_skip (r : Rand) (a b : Nat) : (r.skip a).skip b = r.skip (a + b) := by
  simp [Rand.skip, Nat.add_assoc]

theorem skip_zero (r : Rand) : r.skip 0 = r := rfl

theorem candidate_zero (r : Rand) : candidate r 0 = (generateRandomID r).1 := rfl

theorem candidate_succ (r : Rand) (n : Nat) :
    candidate r (n + 1) = candidate (r.skip idLength) n := by
  simp only [candidate, skip_skip]
  congr 3
  ring

theorem candidate_length (r : Rand) (n : Nat) : (candidate r n).length = 6 :=
  generateRandomID_length _

theorem candidate_mem (r : Rand) (n : Nat) :
    ∀ c ∈ (candidate r n).toList, c ∈ charset.toList :=
  generateRandomID_mem _

/-- What the resampling loop returns: with `id` the `i`-th candidate of `r0` and
`r` the source after it, the result is the first candidate from `i` on that the
map does not mark. -/
theorem resample_some (m : IDSet) (r0 : Rand) :
    ∀ (fuel i : Nat) (k : String) (r1 : Rand),
      resample fuel m (candidate r0 i) (r0.skip (idLength * (i + 1))) = some (k, r1) →
      ∃ n, i ≤ n ∧ n ≤ i + fuel ∧ k = candidate r0 n ∧ m.at k = false ∧
        (∀ j, i ≤ j → j < n → m.at (candidate r0 j) = true) ∧
        r1 = r0.skip (idLength * (n + 1)) := by
  intro fuel
  induction fuel with
  | zero =>
    intro i k r1 h
    unfold resample at h
    by_cases hm : m.at (candidate r0 i) = true
    · simp [hm] at h
    · simp only [hm] at h
      simp only [Bool.false_eq_true, if_false, Option.some.injEq, Prod.mk.injEq] at h
      refine ⟨i, le_refl _, by omega, h.1.symm, ?_, ?_, h.2.symm⟩
      · rw [← h.1]; simpa using hm
      · intro j h1 h2; omega
  | succ f ih =>
    intro i k r1 h
    unfold resample at h
    by_cases hm : m.at (candidate r0 i) = true
    · simp only [hm, if_true] at h
      have hstep : generateRandomID (r0.skip (idLength * (i + 1))) =
          (candidate r0 (i + 1), r0.skip (idLength * (i + 1 + 1))) := by
        apply Prod.ext
        · rfl
        · simp only [generateRandomID_rand, skip_skip]
          congr 1
      rw [hstep] at h
      obtain ⟨n, h1, h2, h3, h4, h5, h6⟩ := ih (i + 1) k r1 h
      refine ⟨n, by omega, by omega, h3, h4, ?_, h6⟩
      intro j hj1 hj2
      by_cases hji : j = i
      · rw [hji]; exact hm
      · exact h5 j (by omega) hj2
    · simp only [hm] at h
      simp only [Bool.false_eq_true, if_false, Option.some.injEq, Prod.mk.injEq] at h
      refine ⟨i, le_refl _, by omega, h.1.symm, ?_, ?_, h.2.symm⟩
      · rw [← h.1]; simpa using hm
      · intro j h1 h2; omega

/-- The resampling loop ends once the fuel covers the distance to the first
candidate that the map does not mark. -/
theorem resample_terminates (m : IDSet) (r0 : Rand) :
    ∀ (fuel i n : Nat), i ≤ n → n ≤ i + fuel → m.at (candidate r0 n) = false →
      ∃ k r1, resample fuel m (candidate r0 i) (r0.skip (idLength * (i + 1))) = some (k, r1) := by
  intro fuel
  induction fuel with
  | zero =>
    intro i n h1 h2 h3
    have : n = i := by omega
    subst this
    unfold resample
    simp [h3]
  | succ f ih =>
    intro i n h1 h2 h3
    unfold resample
    by_cases hm : m.at (candidate r0 i) = true
    · have hne : n ≠ i := by
        intro h; rw [h] at h3; simp [h3] at hm
      have hstep : generateRandomID (r0.skip (idLength * (i + 1))) =
          (candidate r0 (i + 1), r0.skip (idLength * (i + 1 + 1))) := by
        apply Prod.ext
        · rfl
        · simp only [generateRandomID_rand, skip_skip]
          congr 1
      simp only [hm, if_true, hstep]
      exact ih (i + 1) n (by omega) (by omega) h3
    · simp [hm]

theorem generateRandomID_eq (r : Rand) :
    generateRandomID r = (candidate r 0, r.skip idLength) := by
  apply Prod.ext
  · rfl
  · simp [generateRandomID_rand]

theorem skip_first (r : Rand) : r.skip (idLength * (0 + 1)) = r.skip idLength := by
  simp

theorem RandomShortID_exhausted (fuel : Nat) (S : IDSet) (r : Rand)
    (h : totalCombinations ≤ S.len) :
    RandomShortID fuel S r = some (.error (.other errExhausted), S, r) := by
  simp [RandomShortID, h]

theorem unaryIDs_len (n : Nat) : (unaryIDs n).len = n := by
  simp [unaryIDs, IDSet.len]

theorem empty_at (id : String) : (∅ : IDSet).at id = false := by
  simp [IDSet.at]

theorem empty_len : (∅ : IDSet).len = 0 := rfl

/-- On the empty map `RandomShortID` returns the first identifier generated,
whatever the fuel. -/
theorem RandomShortID_empty (fuel : Nat) (r : Rand) :
    RandomShortID fuel ∅ r =
      some (.ok (generateRandomID r).1, (∅ : IDSet).set (generateRandomID r).1,
        r.skip idLength) := by
  have h : ¬ (totalCombinations ≤ (∅ : IDSet).len) := by
    rw [empty_len, totalCombinations_eq]; decide
  unfold RandomShortID
  simp only [ge_iff_le, h, if_false]
  unfold resample
  simp [empty_at, generateRandomID_rand]

/-- What a successful call of `RandomShortID` returns. -/
theorem RandomShortID_ok (fuel : Nat) (S : IDSet) (r : Rand) (k : String) (S1 : IDSet)
    (r1 : Rand) (h : RandomShortID fuel S r = some (.ok k, S1, r1)) :
    S.len < totalCombinations ∧ S1 = S.set k ∧
      ∃ n, n ≤ fuel ∧ k = candidate r n ∧ S.at k = false ∧
        (∀ j, j < n → S.at (candidate r j) = true) ∧ r1 = r.skip (idLength * (n + 1)) := by
  unfold RandomShortID at h
  by_cases hc : totalCombinations ≤ S.len
  · simp [hc] at h
  · simp only [ge_iff_le, hc, if_false, generateRandomID_eq] at h
    cases hres : resample fuel S (candidate r 0) (r.skip idLength) with
    | none => simp [hres] at h
    | some p =>
      obtain ⟨k1, r2⟩ := p
      simp only [hres, Option.some.injEq, Prod.mk.injEq, Except.ok.injEq] at h
      obtain ⟨hk, hS, hr⟩ := h
      rw [← skip_first] at hres
      obtain ⟨n, -, h2, h3, h4, h5, h6⟩ := resample_some S r fuel 0 k1 r2 hres
      subst hk
      refine ⟨by omega, hS.symm, n, by omega, h3, h4, ?_, ?_⟩
      · intro j hj; exact h5 j (Nat.zero_le _) hj
      · rw [← hr, h6]

/-! ## The key generator: claims -/

/-- C4: for every random source `generateRandomID` returns a string of exactly 6
characters, each a character of `charset` (hence alphanumeric); every key that
`RandomShortID` returns without error, for any map, has length 6 and consists of
characters of `charset`; and `charset` has exactly 62 pairwise distinct
characters (62 bytes), which are the ASCII letters and digits. -/
theorem generated_ids_wellformed :
    (∀ r : Rand, (generateRandomID r).1.length = 6 ∧
      ∀ c ∈ (generateRandomID r).1.toList, c ∈ charset.toList ∧ c.isAlphanum = true) ∧
    (∀ (fuel : Nat) (S : IDSet) (r : Rand) (k : String) (S1 : IDSet) (r1 : Rand),
      RandomShortID fuel S r = some (.ok k, S1, r1) →
      k.length = 6 ∧ ∀ c ∈ k.toList, c ∈ charset.toList ∧ c.isAlphanum = true) ∧
    charset.length = 62 ∧ charsetLen = 62 ∧ charset.toList.Nodup ∧
    (∀ c : Char, c ∈ charset.toList ↔ c.isAlphanum = true) := by
  refine ⟨fun r => ⟨generateRandomID_length r, fun c hc => ?_⟩, ?_, by decide, by decide,
    by decide, fun c => ⟨charset_isAlphanum c, alphanum_mem_charset c⟩⟩
  · have := generateRandomID_mem r c hc
    exact ⟨this, charset_isAlphanum c this⟩
  · intro fuel S r k S1 r1 h
    obtain ⟨-, -, n, -, hk, -⟩ := RandomShortID_ok fuel S r k S1 r1 h
    subst hk
    refine ⟨candidate_length r n, fun c hc => ?_⟩
    have := candidate_mem r n c hc
    exact ⟨this, charset_isAlphanum c this⟩

/-- An instance of C4: with `000000` marked, the key returned is `111111`. -/
theorem generated_ids_wellformed_witness :
    RandomShortID 1 seenZeros zerosThenOnes
        = some (.ok "111111", seenZeros.set "111111", zerosThenOnes.skip 12) ∧
      ("111111".length = 6 ∧
        ∀ c ∈ "111111".toList, c ∈ charset.toList ∧ c.isAlphanum = true) :=
  ⟨rfl, generated_ids_wellformed.2.1 1 seenZeros zerosThenOnes "111111" _ _ rfl⟩

/-- C5 (as the code behaves): `totalCombinations` is `62 xor 6 = 56`, not
`62 ^ 6 = 56800235584`; a map of 56 entries, far below `62 ^ 6`, already makes
`RandomShortID` fail with the exhaustion error. -/
theorem totalCombinations_is_xor :
    totalCombinations = 56 ∧ totalCombinations ≠ 62 ^ 6 ∧ (62 : Nat) ^ 6 = 56800235584 ∧
      (unaryIDs 56).len = 56 ∧ (unaryIDs 56).len < 62 ^ 6 ∧
      ∀ (fuel : Nat) (r : Rand),
        RandomShortID fuel (unaryIDs 56) r
          = some (.error (.other errExhausted), unaryIDs 56, r) := by
  refine ⟨by decide, by decide, by norm_num, unaryIDs_len 56, ?_, fun fuel r => ?_⟩
  · rw [unaryIDs_len]; norm_num
  · apply RandomShortID_exhausted
    rw [unaryIDs_len, totalCombinations_eq]

/-- C6: for every map with at least `62 ^ 6` entries `RandomShortID` returns the
exhaustion error (and with it no key), with the random source untouched and the
map as it was, whatever the fuel. -/
theorem RandomShortID_full (fuel : Nat) (S : IDSet) (r : Rand) (h : 62 ^ 6 ≤ S.len) :
    RandomShortID fuel S r
      = some (.error (.other "no more unique IDs can be generated"), S, r) := by
  apply RandomShortID_exhausted
  rw [totalCombinations_eq]
  have : (56 : Nat) ≤ 62 ^ 6 := by norm_num
  omega

/-- An instance of C6: a map of exactly `62 ^ 6` entries. -/
theorem RandomShortID_full_witness :
    62 ^ 6 ≤ (unaryIDs (62 ^ 6)).len ∧
      RandomShortID 0 (unaryIDs (62 ^ 6)) zerosThenOnes
        = some (.error (.other "no more unique IDs can be generated"), unaryIDs (62 ^ 6),
            zerosThenOnes) :=
  ⟨le_of_eq (unaryIDs_len _).symm,
    RandomShortID_full 0 (unaryIDs (62 ^ 6)) zerosThenOnes (le_of_eq (unaryIDs_len _).symm)⟩

/-- C7: whenever `RandomShortID` returns a key `k` without error, the map did not
mark `k` before the call, `k` is the first generated candidate that the map did
not mark (all earlier candidates were marked, and exactly the values of the
candidates up to `k` were consumed), and afterwards the map marks `k` and holds
for every other key what it held before. -/
theorem RandomShortID_avoids_known (fuel : Nat) (S : IDSet) (r : Rand) (k : String)
    (S1 : IDSet) (r1 : Rand) (h : RandomShortID fuel S r = some (.ok k, S1, r1)) :
    S.at k = false ∧
      (∃ n, k = candidate r n ∧ (∀ j, j < n → S.at (candidate r j) = true) ∧
        r1 = r.skip (idLength * (n + 1))) ∧
      S1.at k = true ∧ (∀ id, id ≠ k → S1.lookup id = S.lookup id) := by
  obtain ⟨-, hS, n, -, hk, hat, hfirst, hr⟩ := RandomShortID_ok fuel S r k S1 r1 h
  refine ⟨hat, ⟨n, hk, hfirst, hr⟩, ?_, ?_⟩
  · rw [hS]; simp [IDSet.at, IDSet.set]
  · intro id hid
    rw [hS]
    simp [IDSet.set, AList.lookup_insert_ne hid]

/-- An instance of C7: `000000` is marked, so the second candidate `111111` is
returned. -/
theorem RandomShortID_avoids_known_witness :
    RandomShortID 1 seenZeros zerosThenOnes
        = some (.ok "111111", seenZeros.set "111111", zerosThenOnes.skip 12) ∧
      seenZeros.at "111111" = false ∧ (seenZeros.set "111111").at "111111" = true :=
  have h := RandomShortID_avoids_known 1 seenZeros zerosThenOnes "111111"
    (seenZeros.set "111111") (zerosThenOnes.skip 12) rfl
  ⟨rfl, h.1, h.2.2.1⟩

/-- The loop of `RandomShortID` ends: when the map has fewer than
`totalCombinations` entries and some candidate is not marked, enough fuel gives
a key. -/
theorem RandomShortID_terminates (S : IDSet) (r : Rand) (n : Nat)
    (hlen : S.len < totalCombinations) (hn : S.at (candidate r n) = false) :
    ∀ fuel, n ≤ fuel → ∃ k S1 r1, RandomShortID fuel S r = some (.ok k, S1, r1) := by
  intro fuel hf
  obtain ⟨k, r1, hres⟩ := resample_terminates S r fuel 0 n (Nat.zero_le _) (by omega) hn
  refine ⟨k, S.set k, r1, ?_⟩
  unfold RandomShortID
  have hc : ¬ (totalCombinations ≤ S.len) := by omega
  rw [skip_first] at hres
  simp only [ge_iff_le, hc, if_false, generateRandomID_eq, hres]

/-! ## Facts about the storage statements -/

theorem getShortURL_fault (e : String) (db : Table) (u : String) :
    getShortURLByOriginalURL (some e) db u = .error (.other e) := rfl

theorem getShortURL_miss (db : Table) (u : String)
    (h : ∀ row ∈ db, row.original_url ≠ u) :
    getShortURLByOriginalURL none db u = .error .ErrNoRows := by
  have hf : db.find? (fun row => decide (row.original_url = u)) = none := by
    rw [List.find?_eq_none]
    intro row hrow
    simpa using h row hrow
  simp [getShortURLByOriginalURL, hf]

theorem getShortURL_cases (db : Table) (u : String) :
    (getShortURLByOriginalURL none db u = .error .ErrNoRows ∧
        ∀ row ∈ db, row.original_url ≠ u) ∨
      ∃ row ∈ db, row.original_url = u ∧ getShortURLByOriginalURL none db u = .ok row.key := by
  cases hf : db.find? (fun row => decide (row.original_url = u)) with
  | none =>
    left
    rw [List.find?_eq_none] at hf
    have h : ∀ row ∈ db, row.original_url ≠ u := fun row hrow => by simpa using hf row hrow
    exact ⟨getShortURL_miss db u h, h⟩
  | some row =>
    right
    refine ⟨row, List.mem_of_find?_eq_some hf, by simpa using List.find?_some hf, ?_⟩
    simp [getShortURLByOriginalURL, hf]

theorem selectOriginalURL_miss (db : Table) (k : String) (h : ∀ row ∈ db, row.key ≠ k) :
    selectOriginalURL none db k = .error .ErrNoRows := by
  have hf : db.find? (fun row => decide (row.key = k)) = none := by
    rw [List.find?_eq_none]
    intro row hrow
    simpa using h row hrow
  simp [selectOriginalURL, hf]

/-- Rows of a table with pairwise distinct keys are determined by their key. -/
theorem row_eq_of_key_eq (db : Table) (hkeys : (db.map (fun row => row.key)).Nodup)
    (a b : ShortURL) (ha : a ∈ db) (hb : b ∈ db) (hab : a.key = b.key) : a = b :=
  List.inj_on_of_nodup_map hkeys ha hb hab

theorem selectOriginalURL_hit (db : Table) (hkeys : (db.map (fun row => row.key)).Nodup)
    (row : ShortURL) (hrow : row ∈ db) :
    selectOriginalURL none db row.key = .ok row.original_url := by
  cases hf : db.find? (fun x => decide (x.key = row.key)) with
  | none =>
    rw [List.find?_eq_none] at hf
    have := hf row hrow
    simp at this
  | some x =>
    have hx : x.key = row.key := by simpa using List.find?_some hf
    have : x = row := row_eq_of_key_eq db hkeys x row (List.mem_of_find?_eq_some hf) hrow hx
    simp [selectOriginalURL, hf, this]

theorem insertShortURL_duplicate (fault : Option String) (db : Table) (k u : String)
    (h : ∃ row ∈ db, row.key = k) :
    ∃ e, insertShortURL fault db k u = (.error e, db) := by
  cases fault with
  | some e => exact ⟨_, rfl⟩
  | none =>
    unfold insertShortURL
    by_cases hl : 20 < k.length
    · exact ⟨_, by rw [if_pos hl]⟩
    · have hany : db.any (fun row => decide (row.key = k)) = true := by
        simpa using h
      exact ⟨_, by rw [if_neg hl, if_pos hany]⟩

theorem insertShortURL_cases (fault : Option String) (db : Table) (k u : String) :
    (∃ e, insertShortURL fault db k u = (.error e, db)) ∨
      (fault = none ∧ k.length ≤ 20 ∧ (∀ row ∈ db, row.key ≠ k) ∧
        insertShortURL fault db k u = (.ok k, db ++ [⟨k, u⟩])) := by
  cases fault with
  | some e => exact Or.inl ⟨_, rfl⟩
  | none =>
    unfold insertShortURL
    by_cases hl : 20 < k.length
    · exact Or.inl ⟨_, by rw [if_pos hl]⟩
    · by_cases hany : db.any (fun row => decide (row.key = k)) = true
      · exact Or.inl ⟨_, by rw [if_neg hl, if_pos hany]⟩
      · right
        refine ⟨rfl, by omega, ?_, by simp [hl, hany]⟩
        intro row hrow hk
        apply hany
        simpa using ⟨row, hrow, hk⟩

theorem insertShortURL_fresh (db : Table) (k u : String) (hl : k.length ≤ 20)
    (h : ∀ row ∈ db, row.key ≠ k) :
    insertShortURL none db k u = (.ok k, db ++ [⟨k, u⟩]) := by
  rcases insertShortURL_cases none db k u with ⟨e, he⟩ | ⟨-, -, -, hok⟩
  · exfalso
    unfold insertShortURL at he
    have hl2 : ¬ 20 < k.length := by omega
    have hany : ¬ (db.any (fun row => decide (row.key = k)) = true) := by
      simpa using h
    simp [hl2, hany] at he
  · exact hok

/-- The function `createShortURL` generates exactly one identifier and sends
exactly one `INSERT`, whatever the fuel. -/
theorem createShortURL_eq (fuel : Nat) (fault : Option String) (db : Table) (u : String)
    (r : Rand) :
    createShortURL fuel fault db u r =
      some ((insertShortURL fault db (candidate r 0) u).1,
        (insertShortURL fault db (candidate r 0) u).2, r.skip idLength,
        [.insert (candidate r 0) u]) := by
  unfold createShortURL
  rw [RandomShortID_empty]
  simp only [candidate_zero]
  rcases hins : insertShortURL fault db (generateRandomID r).1 u with ⟨res, db1⟩
  cases res <;> rfl

/-! ## Facts about the handlers -/

theorem post_select_fault (fuel : Nat) (f : Faults) (db : Table) (r : Rand) (u e : String)
    (hf : f.select = some e) :
    GetOrCreateShortURL fuel f db r (some u) =
      some ⟨.json 500 [("error", "Failed to check for existing short URL")], db, r,
        [.selectKey u]⟩ := by
  simp [GetOrCreateShortURL, hf, getShortURL_fault]

theorem post_hit (fuel : Nat) (f : Faults) (db : Table) (r : Rand) (u k : String)
    (hf : f.select = none) (h : getShortURLByOriginalURL none db u = .ok k) :
    GetOrCreateShortURL fuel f db r (some u) =
      some ⟨created u k, db, r, [.selectKey u]⟩ := by
  simp [GetOrCreateShortURL, hf, h, created]

theorem post_miss_error (fuel : Nat) (f : Faults) (db : Table) (r : Rand) (u : String)
    (e : GoError) (db1 : Table) (hf : f.select = none)
    (h : getShortURLByOriginalURL none db u = .error .ErrNoRows)
    (hins : insertShortURL f.insert db (candidate r 0) u = (.error e, db1)) :
    GetOrCreateShortURL fuel f db r (some u) =
      some ⟨.json 500 [("error", "Failed to create short URL")], db1, r.skip idLength,
        [.selectKey u, .insert (candidate r 0) u]⟩ := by
  simp [GetOrCreateShortURL, hf, h, createShortURL_eq, hins]

theorem post_miss_ok (fuel : Nat) (f : Faults) (db : Table) (r : Rand) (u k : String)
    (db1 : Table) (hf : f.select = none)
    (h : getShortURLByOriginalURL none db u = .error .ErrNoRows)
    (hins : insertShortURL f.insert db (candidate r 0) u = (.ok k, db1)) :
    GetOrCreateShortURL fuel f db r (some u) =
      some ⟨created u k, db1, r.skip idLength,
        [.selectKey u, .insert (candidate r 0) u]⟩ := by
  simp [GetOrCreateShortURL, hf, h, createShortURL_eq, hins, created]

/-- The `POST` handler always answers, whatever the fuel; its four ways through
the code. -/
theorem post_cases (fuel : Nat) (f : Faults) (db : Table) (r : Rand) (u : String) :
    (∃ e, f.select = some e ∧ GetOrCreateShortURL fuel f db r (some u) =
        some ⟨.json 500 [("error", "Failed to check for existing short URL")], db, r,
          [.selectKey u]⟩) ∨
    (f.select = none ∧ ∃ row ∈ db, row.original_url = u ∧
        getShortURLByOriginalURL none db u = .ok row.key ∧
        GetOrCreateShortURL fuel f db r (some u) =
          some ⟨created u row.key, db, r, [.selectKey u]⟩) ∨
    (f.select = none ∧ (∀ row ∈ db, row.original_url ≠ u) ∧
        GetOrCreateShortURL fuel f db r (some u) =
          some ⟨.json 500 [("error", "Failed to create short URL")], db, r.skip idLength,
            [.selectKey u, .insert (candidate r 0) u]⟩) ∨
    (f.select = none ∧ (∀ row ∈ db, row.original_url ≠ u) ∧
        (∀ row ∈ db, row.key ≠ candidate r 0) ∧
        GetOrCreateShortURL fuel f db r (some u) =
          some ⟨created u (candidate r 0), db ++ [⟨candidate r 0, u⟩], r.skip idLength,
            [.selectKey u, .insert (candidate r 0) u]⟩) := by
  cases hf : f.select with
  | some e => exact Or.inl ⟨e, rfl, post_select_fault fuel f db r u e hf⟩
  | none =>
    right
    rcases getShortURL_cases db u with ⟨hmiss, hno⟩ | ⟨row, hrow, hurl, hhit⟩
    · right
      rcases insertShortURL_cases f.insert db (candidate r 0) u with
        ⟨e, he⟩ | ⟨-, -, hfresh, hok⟩
      · exact Or.inl ⟨rfl, hno, post_miss_error fuel f db r u e db hf hmiss he⟩
      · exact Or.inr ⟨rfl, hno, hfresh, post_miss_ok fuel f db r u _ _ hf hmiss hok⟩
    · exact Or.inl ⟨rfl, row, hrow, hurl, hhit, post_hit fuel f db r u row.key hf hhit⟩

theorem created_ne_error (u k msg : String) :
    created u k ≠ .json 500 [("error", msg)] := by
  simp [created]

theorem created_inj (u k k1 : String) (h : created u k = created u k1) : k = k1 := by
  simpa [created] using h

/-- A successful `POST` leaves the mapping it reports in the table, and the
table is either as before or longer by that one fresh row. -/
theorem post_success (fuel : Nat) (f : Faults) (db : Table) (r : Rand) (u K : String)
    (o : Outcome) (h : GetOrCreateShortURL fuel f db r (some u) = some o)
    (hresp : o.response = created u K) :
    f.select = none ∧
    ((o = ⟨created u K, db, r, [.selectKey u]⟩ ∧ (⟨K, u⟩ : ShortURL) ∈ db ∧
        getShortURLByOriginalURL none db u = .ok K) ∨
      (o = ⟨created u K, db ++ [⟨K, u⟩], r.skip idLength, [.selectKey u, .insert K u]⟩ ∧
        K = candidate r 0 ∧ (∀ row ∈ db, row.key ≠ K) ∧
        ∀ row ∈ db, row.original_url ≠ u)) := by
  rcases post_cases fuel f db r u with ⟨e, -, h1⟩ | ⟨hf, row, hrow, hurl, hhit, h1⟩ |
      ⟨-, -, h1⟩ | ⟨hf, hno, hfresh, h1⟩
  · rw [h1] at h
    cases h
    exact absurd hresp.symm (created_ne_error _ _ _)
  · rw [h1] at h
    cases h
    have hK : row.key = K := created_inj _ _ _ hresp
    subst hK
    subst hurl
    exact ⟨hf, Or.inl ⟨rfl, hrow, hhit⟩⟩
  · rw [h1] at h
    cases h
    exact absurd hresp.symm (created_ne_error _ _ _)
  · rw [h1] at h
    cases h
    have hK : candidate r 0 = K := created_inj _ _ _ hresp
    subst hK
    exact ⟨hf, Or.inr ⟨rfl, rfl, hfresh, hno⟩⟩

/-- What one request does to the table: nothing, or one row appended whose key
and whose URL are both new. -/
theorem handle_db (fuel : Nat) (req : Request) (db : Table) (r : Rand) (o : Outcome)
    (h : handle fuel req db r = some o) :
    o.db = db ∨ ∃ k u, o.db = db ++ [⟨k, u⟩] ∧ (∀ row ∈ db, row.key ≠ k) ∧
      ∀ row ∈ db, row.original_url ≠ u := by
  cases req with
  | get key fault =>
    simp only [handle, Option.some.injEq] at h
    subst h
    left
    unfold RedirectToCorrespondingURL
    split <;> rfl
  | post body f =>
    simp only [handle] at h
    cases body with
    | none =>
      simp only [GetOrCreateShortURL, Option.some.injEq] at h
      subst h
      exact Or.inl rfl
    | some u =>
      rcases post_cases fuel f db r u with ⟨e, -, h1⟩ | ⟨-, row, -, -, -, h1⟩ |
          ⟨-, -, h1⟩ | ⟨-, hno, hfresh, h1⟩
      · rw [h1] at h; cases h; exact Or.inl rfl
      · rw [h1] at h; cases h; exact Or.inl rfl
      · rw [h1] at h; cases h; exact Or.inl rfl
      · rw [h1] at h; cases h; exact Or.inr ⟨_, _, rfl, hfresh, hno⟩

theorem handle_extends (fuel : Nat) (req : Request) (db : Table) (r : Rand) (o : Outcome)
    (h : handle fuel req db r = some o) : db <+: o.db := by
  rcases handle_db fuel req db r o h with h1 | ⟨k, u, h1, -, -⟩
  · rw [h1]
  · rw [h1]; exact List.prefix_append _ _

theorem reachableFrom_extends (a b : Table) (h : ReachableFrom a b) : a <+: b := by
  induction h with
  | start => exact List.prefix_refl _
  | serve fuel req r o _ hstep ih => exact ih.trans (handle_extends fuel req _ r o hstep)

theorem reachableFrom_trans (a b c : Table) (hab : ReachableFrom a b)
    (hbc : ReachableFrom b c) : ReachableFrom a c := by
  induction hbc with
  | start => exact hab
  | serve fuel req r o _ hstep ih => exact ReachableFrom.serve fuel req r o ih hstep

/-- The invariant of the table: keys are pairwise distinct, and so are the
original URLs. -/
theorem reachableFrom_nodup (a b : Table) (h : ReachableFrom a b)
    (hk : (a.map (fun row => row.key)).Nodup)
    (hu : (a.map (fun row => row.original_url)).Nodup) :
    (b.map (fun row => row.key)).Nodup ∧ (b.map (fun row => row.original_url)).Nodup := by
  induction h with
  | start => exact ⟨hk, hu⟩
  | serve fuel req r o _ hstep ih =>
    rcases handle_db fuel req _ r o hstep with h1 | ⟨k, u, h1, hfresh, hno⟩
    · rw [h1]; exact ih
    · rw [h1]
      simp only [List.map_append, List.map_cons, List.map_nil]
      constructor
      · refine List.Nodup.append ih.1 (List.nodup_singleton _) ?_
        intro x hx hx1
        rw [List.mem_singleton] at hx1
        subst hx1
        obtain ⟨row, hrow, hrk⟩ := List.mem_map.1 hx
        exact hfresh row hrow hrk
      · refine List.Nodup.append ih.2 (List.nodup_singleton _) ?_
        intro x hx hx1
        rw [List.mem_singleton] at hx1
        subst hx1
        obtain ⟨row, hrow, hrk⟩ := List.mem_map.1 hx
        exact hno row hrow hrk

theorem reachable_nodup (db : Table) (h : Reachable db) :
    (db.map (fun row => row.key)).Nodup ∧ (db.map (fun row => row.original_url)).Nodup :=
  reachableFrom_nodup [] db h List.nodup_nil List.nodup_nil

theorem nodup_keys_append (db : Table) (k u : String)
    (hkeys : (db.map (fun row => row.key)).Nodup) (hfresh : ∀ row ∈ db, row.key ≠ k) :
    ((db ++ [(⟨k, u⟩ : ShortURL)]).map (fun row => row.key)).Nodup := by
  simp only [List.map_append, List.map_cons, List.map_nil]
  refine List.Nodup.append hkeys (List.nodup_singleton _) ?_
  intro x hx hx1
  rw [List.mem_singleton] at hx1
  subst hx1
  obtain ⟨row, hrow, hrk⟩ := List.mem_map.1 hx
  exact hfresh row hrow hrk

/-- In a table whose URLs are pairwise distinct, the rows for the URL of a row
are that row alone. -/
theorem filter_url_of_nodup (db : Table)
    (hu : (db.map (fun row => row.original_url)).Nodup) (row : ShortURL) (hrow : row ∈ db) :
    db.filter (fun x => decide (x.original_url = row.original_url)) = [row] := by
  induction db with
  | nil => simp at hrow
  | cons x xs ih =>
    rw [List.map_cons, List.nodup_cons] at hu
    obtain ⟨hx, hxs⟩ := hu
    rcases List.mem_cons.1 hrow with h1 | h1
    · subst h1
      have hnil : xs.filter (fun x => decide (x.original_url = row.original_url)) = [] := by
        rw [List.filter_eq_nil_iff]
        intro a ha hau
        apply hx
        rw [List.mem_map]
        exact ⟨a, ha, by simpa using hau⟩
      simp [List.filter_cons, hnil]
    · have hne : ¬ (x.original_url = row.original_url) := by
        intro he
        apply hx
        rw [List.mem_map]
        exact ⟨row, h1, he.symm⟩
      simp [List.filter_cons, hne, ih hxs h1]

theorem get_hit (fault : Option String) (db : Table) (r : Rand) (k u : String)
    (h : selectOriginalURL fault db k = .ok u) :
    RedirectToCorrespondingURL fault db r k
      = ⟨.redirect 301 u, db, r, [.selectOriginalURL k]⟩ := by
  simp [RedirectToCorrespondingURL, h]

/-! ## The store protocol: claims -/

/-- C1: in every table reachable by sequential requests, if the `POST` handler
for `U` answers with key `K`, then the `POST` for `U` that follows immediately
(its lookup not failing) answers, for every fuel, with the same `K`, sends the
lookup alone, draws nothing from the random source and leaves the table as it
is; the table then holds exactly one mapping for `U`, the row `(K, U)`. -/
theorem post_twice_same_key (db : Table) (hreach : Reachable db) (fuel : Nat) (f : Faults)
    (r : Rand) (u K : String) (o : Outcome)
    (h : GetOrCreateShortURL fuel f db r (some u) = some o)
    (hresp : o.response = created u K) :
    (∀ (fuel2 : Nat) (f2 : Faults), f2.select = none →
      GetOrCreateShortURL fuel2 f2 o.db o.rand (some u)
        = some ⟨created u K, o.db, o.rand, [.selectKey u]⟩) ∧
    o.db.filter (fun row => decide (row.original_url = u)) = [⟨K, u⟩] := by
  have hreach1 : Reachable o.db :=
    ReachableFrom.serve fuel (.post (some u) f) r o hreach h
  have hmem : (⟨K, u⟩ : ShortURL) ∈ o.db := by
    rcases (post_success fuel f db r u K o h hresp).2 with ⟨ho, hm, -⟩ | ⟨ho, -, -, -⟩
    · rw [ho]; exact hm
    · rw [ho]; simp
  have hfilter := filter_url_of_nodup o.db (reachable_nodup o.db hreach1).2 ⟨K, u⟩ hmem
  refine ⟨fun fuel2 f2 hf2 => ?_, hfilter⟩
  apply post_hit fuel2 f2 o.db o.rand u K hf2
  rcases getShortURL_cases o.db u with ⟨-, hno⟩ | ⟨row, hrow, hurl, hhit⟩
  · exact absurd rfl (hno ⟨K, u⟩ hmem)
  · have hrow1 : row ∈ o.db.filter (fun x => decide (x.original_url = u)) := by
      rw [List.mem_filter]
      exact ⟨hrow, by simpa using hurl⟩
    rw [hfilter, List.mem_singleton] at hrow1
    rw [hhit, hrow1]

/-- An instance of C1: the first `POST` on the empty table creates `000000`, the
second returns it again. -/
theorem post_twice_same_key_witness :
    GetOrCreateShortURL 0 ⟨none, none⟩ [] zerosThenOnes (some "https://example.com")
        = some firstOutcome ∧
      GetOrCreateShortURL 0 ⟨none, none⟩ firstOutcome.db firstOutcome.rand
          (some "https://example.com")
        = some ⟨created "https://example.com" "000000", firstOutcome.db, firstOutcome.rand,
            [.selectKey "https://example.com"]⟩ :=
  ⟨rfl, (post_twice_same_key [] ReachableFrom.start 0 ⟨none, none⟩ zerosThenOnes
    "https://example.com" "000000" firstOutcome rfl rfl).1 0 ⟨none, none⟩ rfl⟩

/-- C2: in every table with pairwise distinct keys, if the `POST` handler for `U`
answers with key `K`, be it freshly inserted or found, then the `GET` handler for
`K` on the resulting table (its lookup not failing) answers with a 301 redirect
to exactly `U`. -/
theorem post_then_get_redirects (db : Table) (hkeys : (db.map (fun row => row.key)).Nodup)
    (fuel : Nat) (f : Faults) (r : Rand) (u K : String) (o : Outcome)
    (h : GetOrCreateShortURL fuel f db r (some u) = some o)
    (hresp : o.response = created u K) (r2 : Rand) :
    RedirectToCorrespondingURL none o.db r2 K
      = ⟨.redirect 301 u, o.db, r2, [.selectOriginalURL K]⟩ := by
  apply get_hit
  rcases (post_success fuel f db r u K o h hresp).2 with ⟨ho, hm, -⟩ | ⟨ho, -, hfresh, -⟩
  · rw [ho]
    exact selectOriginalURL_hit db hkeys ⟨K, u⟩ hm
  · rw [ho]
    exact selectOriginalURL_hit (db ++ [⟨K, u⟩]) (nodup_keys_append db K u hkeys hfresh)
      ⟨K, u⟩ (by simp)

/-- An instance of C2: the key created for `https://other.example` redirects to
it. -/
theorem post_then_get_redirects_witness :
    (occupied.map (fun row => row.key)).Nodup ∧
      GetOrCreateShortURL 0 ⟨none, none⟩ occupied (zerosThenOnes.skip 6)
          (some "https://other.example") = some secondOutcome ∧
      RedirectToCorrespondingURL none secondOutcome.db zerosThenOnes "111111"
        = ⟨.redirect 301 "https://other.example", secondOutcome.db, zerosThenOnes,
            [.selectOriginalURL "111111"]⟩ :=
  ⟨by decide, rfl,
    post_then_get_redirects occupied (by decide) 0 ⟨none, none⟩ (zerosThenOnes.skip 6)
      "https://other.example" "111111" secondOutcome rfl rfl zerosThenOnes⟩

/-- C3: for every table and every key `K` that no row of it has, the `GET`
handler for `K` (its lookup not failing) answers with status 404 and the body
`{"error": "Short URL not found"}`, not with a redirect, and leaves the table as
it is. -/
theorem get_unknown_key (db : Table) (r : Rand) (K : String)
    (h : ∀ row ∈ db, row.key ≠ K) :
    RedirectToCorrespondingURL none db r K
      = ⟨.json 404 [("error", "Short URL not found")], db, r, [.selectOriginalURL K]⟩ := by
  simp [RedirectToCorrespondingURL, selectOriginalURL_miss db K h]

/-- An instance of C3: `zzzzzz` was never issued. -/
theorem get_unknown_key_witness :
    RedirectToCorrespondingURL none occupied zerosThenOnes "zzzzzz"
      = ⟨.json 404 [("error", "Short URL not found")], occupied, zerosThenOnes,
          [.selectOriginalURL "zzzzzz"]⟩ :=
  get_unknown_key occupied zerosThenOnes "zzzzzz" (by decide)

/-- C8 fails on the code: the table holds the key `000000`, the first generated
key is `000000` and collides, the next candidate `111111` is free and its insert
would succeed; yet the handler answers 500 after a single `INSERT` and a single
generated key, without a second attempt. -/
theorem post_collision_counterexample :
    getShortURLByOriginalURL none occupied "https://other.example" = .error .ErrNoRows ∧
      candidate zerosThenOnes 0 = "000000" ∧ candidate zerosThenOnes 1 = "111111" ∧
      (insertShortURL none occupied "111111" "https://other.example").1 = .ok "111111" ∧
      (GetOrCreateShortURL 8 ⟨none, none⟩ occupied zerosThenOnes
          (some "https://other.example")).map (fun o => (o.response, o.db, o.stmts, o.rand.pos))
        = some (.json 500 [("error", "Failed to create short URL")], occupied,
            [.selectKey "https://other.example", .insert "000000" "https://other.example"],
            6) :=
  ⟨rfl, rfl, rfl, rfl, rfl⟩

/-- C8 as amended: on the lookup-miss path, when the key generated collides with
a row of the table, the handler does not try again: for every fuel it answers
with status 500 and `{"error": "Failed to create short URL"}`, having generated
one key and sent one `INSERT`, and the table is as before. -/
theorem post_collision_is_fatal (fuel : Nat) (f : Faults) (db : Table) (r : Rand)
    (u : String) (hsel : f.select = none) (hmiss : ∀ row ∈ db, row.original_url ≠ u)
    (hcol : ∃ row ∈ db, row.key = candidate r 0) :
    GetOrCreateShortURL fuel f db r (some u)
      = some ⟨.json 500 [("error", "Failed to create short URL")], db, r.skip idLength,
          [.selectKey u, .insert (candidate r 0) u]⟩ := by
  obtain ⟨e, he⟩ := insertShortURL_duplicate f.insert db (candidate r 0) u hcol
  exact post_miss_error fuel f db r u e db hsel (getShortURL_miss db u hmiss) he

/-- An instance of amended C8: the collision on `000000`. -/
theorem post_collision_is_fatal_witness :
    GetOrCreateShortURL 8 ⟨none, none⟩ occupied zerosThenOnes (some "https://other.example")
      = some ⟨.json 500 [("error", "Failed to create short URL")], occupied,
          zerosThenOnes.skip idLength,
          [.selectKey "https://other.example",
            .insert (candidate zerosThenOnes 0) "https://other.example"]⟩ :=
  post_collision_is_fatal 8 ⟨none, none⟩ occupied zerosThenOnes "https://other.example" rfl
    (by decide) (by decide)

/-- C9: in every table reachable from the empty one by `POST` and `GET` requests
no two rows share a key; an `INSERT` whose key is already in the table fails and
leaves the table as it is; every request leaves the rows it found in place,
unmodified (the old table is a prefix of the new one); and two successful `POST`
answers for distinct URLs, in one run of the service, carry different keys. -/
theorem key_uniqueness :
    (∀ db : Table, Reachable db → (db.map (fun row => row.key)).Nodup) ∧
    (∀ (fault : Option String) (db : Table) (k u : String), (∃ row ∈ db, row.key = k) →
      ∃ e, insertShortURL fault db k u = (.error e, db)) ∧
    (∀ (fuel : Nat) (req : Request) (db : Table) (r : Rand) (o : Outcome),
      handle fuel req db r = some o → db <+: o.db) ∧
    (∀ (db1 db2 : Table) (fuel1 fuel2 : Nat) (f1 f2 : Faults) (r1 r2 : Rand)
      (u1 u2 K1 K2 : String) (o1 o2 : Outcome),
      Reachable db1 →
      GetOrCreateShortURL fuel1 f1 db1 r1 (some u1) = some o1 → o1.response = created u1 K1 →
      ReachableFrom o1.db db2 →
      GetOrCreateShortURL fuel2 f2 db2 r2 (some u2) = some o2 → o2.response = created u2 K2 →
      u1 ≠ u2 → K1 ≠ K2) := by
  refine ⟨fun db h => (reachable_nodup db h).1, insertShortURL_duplicate, handle_extends, ?_⟩
  intro db1 db2 fuel1 fuel2 f1 f2 r1 r2 u1 u2 K1 K2 o1 o2 hreach h1 hresp1 hmid h2 hresp2
    hne hK
  have hro1 : Reachable o1.db := ReachableFrom.serve fuel1 (.post (some u1) f1) r1 o1 hreach h1
  have hrdb2 : Reachable db2 := reachableFrom_trans [] o1.db db2 hro1 hmid
  have hstep2 : handle fuel2 (.post (some u2) f2) db2 r2 = some o2 := h2
  have hro2 : Reachable o2.db := ReachableFrom.serve fuel2 (.post (some u2) f2) r2 o2 hrdb2 hstep2
  have hm1 : (⟨K1, u1⟩ : ShortURL) ∈ o1.db := by
    rcases (post_success fuel1 f1 db1 r1 u1 K1 o1 h1 hresp1).2 with ⟨ho, hm, -⟩ | ⟨ho, -, -, -⟩
    · rw [ho]; exact hm
    · rw [ho]; simp
  have hm2 : (⟨K2, u2⟩ : ShortURL) ∈ o2.db := by
    rcases (post_success fuel2 f2 db2 r2 u2 K2 o2 h2 hresp2).2 with ⟨ho, hm, -⟩ | ⟨ho, -, -, -⟩
    · rw [ho]; exact hm
    · rw [ho]; simp
  have hm1b : (⟨K1, u1⟩ : ShortURL) ∈ o2.db :=
    ((reachableFrom_extends o1.db db2 hmid).trans
      (handle_extends fuel2 _ db2 r2 o2 hstep2)).subset hm1
  have := row_eq_of_key_eq o2.db (reachable_nodup o2.db hro2).1 ⟨K1, u1⟩ ⟨K2, u2⟩ hm1b hm2 hK
  exact hne (congrArg ShortURL.original_url this)

/-- An instance of C9: two URLs shortened one after the other on the empty
table get the keys `000000` and `111111`. -/
theorem key_uniqueness_witness :
    GetOrCreateShortURL 0 ⟨none, none⟩ [] zerosThenOnes (some "https://example.com")
        = some firstOutcome ∧
      GetOrCreateShortURL 0 ⟨none, none⟩ firstOutcome.db firstOutcome.rand
          (some "https://other.example") = some secondOutcome ∧
      "000000" ≠ "111111" :=
  ⟨rfl, rfl,
    key_uniqueness.2.2.2 [] firstOutcome.db 0 0 ⟨none, none⟩ ⟨none, none⟩ zerosThenOnes
      firstOutcome.rand "https://example.com" "https://other.example" "000000" "111111"
      firstOutcome secondOutcome ReachableFrom.start rfl rfl ReachableFrom.start rfl rfl
      (by decide)⟩

/-- C10: a storage error other than not-found is answered with status 500 and is
not retried.  In the `POST` handler a failing lookup gives 500 with the lookup
the only statement sent (no `INSERT`, no key generated); a failing `INSERT` gives
500 with that one `INSERT` the last statement sent; in the `GET` handler a
failing lookup gives 500 and no redirect.  The body is a fixed message in which
the underlying error does not occur, and the table is as before. -/
theorem storage_errors_are_internal :
    (∀ (fuel : Nat) (f : Faults) (db : Table) (r : Rand) (u e : String),
      f.select = some e →
      GetOrCreateShortURL fuel f db r (some u)
        = some ⟨.json 500 [("error", "Failed to check for existing short URL")], db, r,
            [.selectKey u]⟩) ∧
    (∀ (fuel : Nat) (f : Faults) (db db1 : Table) (r : Rand) (u : String) (e : GoError),
      f.select = none → (∀ row ∈ db, row.original_url ≠ u) →
      insertShortURL f.insert db (candidate r 0) u = (.error e, db1) →
      db1 = db ∧
      GetOrCreateShortURL fuel f db r (some u)
        = some ⟨.json 500 [("error", "Failed to create short URL")], db, r.skip idLength,
            [.selectKey u, .insert (candidate r 0) u]⟩) ∧
    (∀ (db : Table) (r : Rand) (K e : String),
      RedirectToCorrespondingURL (some e) db r K
        = ⟨.json 500 [("error", "Failed to retrieve original URL")], db, r,
            [.selectOriginalURL K]⟩) := by
  refine ⟨post_select_fault, ?_, fun db r K e => rfl⟩
  intro fuel f db db1 r u e hsel hmiss hins
  have hdb : db1 = db := by
    rcases insertShortURL_cases f.insert db (candidate r 0) u with ⟨e1, he1⟩ | ⟨-, -, -, hok⟩
    · rw [he1] at hins
      exact (congrArg Prod.snd hins).symm
    · rw [hok] at hins
      cases hins
  subst hdb
  exact ⟨rfl, post_miss_error fuel f db1 r u e db1 hsel (getShortURL_miss db1 u hmiss) hins⟩

/-- An instance of C10: a lookup failing with `connection refused`, and an
`INSERT` failing with `connection reset`. -/
theorem storage_errors_are_internal_witness :
    GetOrCreateShortURL 0 ⟨some "connection refused", none⟩ occupied zerosThenOnes
        (some "https://other.example")
      = some ⟨.json 500 [("error", "Failed to check for existing short URL")], occupied,
          zerosThenOnes, [.selectKey "https://other.example"]⟩ ∧
    (occupied = occupied ∧
      GetOrCreateShortURL 0 ⟨none, some "connection reset"⟩ occupied zerosThenOnes
          (some "https://other.example")
        = some ⟨.json 500 [("error", "Failed to create short URL")], occupied,
            zerosThenOnes.skip idLength,
            [.selectKey "https://other.example",
              .insert (candidate zerosThenOnes 0) "https://other.example"]⟩) :=
  ⟨storage_errors_are_internal.1 0 ⟨some "connection refused", none⟩ occupied zerosThenOnes
      "https://other.example" "connection refused" rfl,
    storage_errors_are_internal.2.1 0 ⟨none, some "connection reset"⟩ occupied occupied
      zerosThenOnes "https://other.example" (.other "connection reset") rfl (by decide) rfl⟩

end UrlShortener
